import Mathlib

/-!
Verification of the Find-the-Diff repository against its specification.

The repository ships the browser UI (`converter/templates/index.html`), the
puzzle viewer (`view/script.js`) and documentation; the server-side pipeline
(`app.py`, per the readme's project structure) is not part of the available
sources.  The pipeline is therefore modelled from the specification's
component design (spec §3–§4, §6–§8), and every definition embedding it
carries a doc comment starting with `Modelled from the spec:`.  The UI and
viewer definitions are embedded directly from the JavaScript sources.
-/

/-! ## Core data model (spec §3) -/

/-- Modelled from the spec: an RGB color sample ("3 channels", §3 Image);
the missing `app.py` pipeline works on such samples. -/
structure Pix where
  r : Nat
  g : Nat
  b : Nat
deriving DecidableEq

/-- Modelled from the spec: an immutable width×height buffer of color
samples (§3 Image).  Pixels are exposed as a total function; positions
outside the `width`×`height` rectangle are irrelevant to the pipeline,
whose every stage guards on the bounds. -/
structure Image where
  width : Nat
  height : Nat
  pix : Nat → Nat → Pix

/-- Modelled from the spec: the immutable per-run configuration (§3
Settings), with the eleven fields named there. -/
structure Settings where
  threshold : Nat
  minArea : Nat
  dilationIter : Nat
  circleThickness : Nat
  circleColor : Pix
  overlayColor : Pix
  overlayOpacity : Nat
  touchDistance : Nat
  imageSpacing : Nat
  separatorColor : Pix
  separatorThickness : Nat

/-- The declared ranges of the numeric settings (spec §3). -/
def SettingsInRange (s : Settings) : Prop :=
  1 ≤ s.threshold ∧ s.threshold ≤ 255 ∧
  1 ≤ s.minArea ∧ s.minArea ≤ 200 ∧
  s.dilationIter ≤ 10 ∧
  1 ≤ s.circleThickness ∧ s.circleThickness ≤ 10 ∧
  s.overlayOpacity ≤ 255 ∧
  1 ≤ s.touchDistance ∧ s.touchDistance ≤ 50 ∧
  s.imageSpacing ≤ 100 ∧
  1 ≤ s.separatorThickness ∧ s.separatorThickness ≤ 10

instance (s : Settings) : Decidable (SettingsInRange s) := by
  unfold SettingsInRange; infer_instance

/-! ## Difference mask builder (spec §4.2) -/

/-- Modelled from the spec: the scalar color distance between two samples.
The spec leaves the metric an implementer's choice and names "the maximum
per-channel absolute difference" as its example; that choice is used here
and held constant. -/
def pixDist (p q : Pix) : Nat :=
  max (max (p.r - q.r) (q.r - p.r))
    (max (max (p.g - q.g) (q.g - p.g)) (max (p.b - q.b) (q.b - p.b)))

/-- Modelled from the spec: the binary difference mask (§4.2) — `true` at a
position iff the color distance there exceeds `threshold`.  Positions
outside the image rectangle are `false`. -/
def baseMask (o m : Image) (s : Settings) : Nat → Nat → Bool := fun x y =>
  decide (x < o.width) && decide (y < o.height) &&
    decide (s.threshold < pixDist (o.pix x y) (m.pix x y))

/-! ## Morphological expander (spec §4.3) -/

/-- Modelled from the spec: one pass of 8-neighborhood dilation (§4.3) — an
in-bounds pixel becomes `true` if it or any of its 8 neighbors was `true`
in the previous pass.  Truncated subtraction makes border cells re-read
in-rectangle cells, which is harmless: every re-read cell is the cell
itself or another of its neighbors. -/
def dilateStep (w h : Nat) (mask : Nat → Nat → Bool) : Nat → Nat → Bool :=
  fun x y =>
    decide (x < w) && decide (y < h) &&
      (mask x y || mask (x+1) y || mask (x-1) y ||
       mask x (y+1) || mask x (y-1) ||
       mask (x+1) (y+1) || mask (x+1) (y-1) ||
       mask (x-1) (y+1) || mask (x-1) (y-1))

/-- Modelled from the spec: `n` passes of 8-neighborhood dilation (§4.3);
`0` passes is a no-op. -/
def dilateIter (w h : Nat) : Nat → (Nat → Nat → Bool) → (Nat → Nat → Bool)
  | 0, mask => mask
  | n+1, mask => dilateStep w h (dilateIter w h n mask)

/-- Modelled from the spec: the difference mask after thresholding (§4.2)
and `dilationIter` dilation passes (§4.3). -/
def diffMask (o m : Image) (s : Settings) : Nat → Nat → Bool :=
  dilateIter o.width o.height s.dilationIter (baseMask o m s)

/-! ## Connected components and union-find closure

The region extractor (§4.4) and the region grouper (§4.5) both need the
partition of a finite index set by the closure of a decidable relation
(8-adjacency of mask pixels; touch-distance of components).  The closure is
computed by saturation: starting from a single index, repeatedly add every
index related to an already-reached one; `n` rounds suffice over `n`
indices. -/

/-- Indices `< n` not yet in `s` but related by `R` to a member of `s`. -/
def newElems (R : Nat → Nat → Bool) (n : Nat) (s : List Nat) : List Nat :=
  (List.range n).filter (fun j => decide (j ∉ s) && s.any (fun a => R a j))

/-- One saturation round: adjoin the newly reachable indices. -/
def satStep (R : Nat → Nat → Bool) (n : Nat) (s : List Nat) : List Nat :=
  s ++ newElems R n s

/-- Iterated saturation rounds. -/
def satIter (R : Nat → Nat → Bool) (n : Nat) : Nat → List Nat → List Nat
  | 0, s => s
  | k+1, s => satIter R n k (satStep R n s)

/-- All indices reachable from `i` through `R`: `n` saturation rounds
starting from `{i}`, which is enough to reach the fixpoint. -/
def reachSet (R : Nat → Nat → Bool) (n : Nat) (i : Nat) : List Nat :=
  satIter R n n [i]

/-- The canonical representative of `i`'s class: the least reachable
index (union-find with the minimum as root, §4.5). -/
def rep (R : Nat → Nat → Bool) (n : Nat) (i : Nat) : Nat :=
  (reachSet R n i).foldr Nat.min i

/-- The class representatives among `0..n-1`, in increasing order. -/
def repsList (R : Nat → Nat → Bool) (n : Nat) : List Nat :=
  (List.range n).filter (fun i => rep R n i == i)

/-- The partition of `0..n-1` into closure classes, one class per
representative. -/
def classesOf (R : Nat → Nat → Bool) (n : Nat) : List (List Nat) :=
  (repsList R n).map (fun c => (List.range n).filter (fun i => rep R n i == c))

/-! ## Region extractor (spec §4.4) -/

/-- Modelled from the spec: the grid positions of an image, in raster
order (row by row, left to right). -/
def allPositions (w h : Nat) : List (Nat × Nat) :=
  (List.range h).flatMap (fun y => (List.range w).map (fun x => (x, y)))

/-- Modelled from the spec: the positions of the (dilated) difference mask
that are set, in raster order. -/
def maskPts (o m : Image) (s : Settings) : List (Nat × Nat) :=
  (allPositions o.width o.height).filter (fun p => diffMask o m s p.1 p.2)

/-- Chebyshev distance between two grid positions; `≤ 1` is exactly
8-connectivity (two distinct cells touching at a side or corner). -/
def cheb (p q : Nat × Nat) : Nat :=
  max (max (p.1 - q.1) (q.1 - p.1)) (max (p.2 - q.2) (q.2 - p.2))

/-- Modelled from the spec: 8-adjacency (§4.4) as a relation on indices
into the mask-position list. -/
def adjR (ps : List (Nat × Nat)) (i j : Nat) : Bool :=
  decide (i < ps.length) && decide (j < ps.length) &&
    decide (cheb (ps.getD i (0, 0)) (ps.getD j (0, 0)) ≤ 1)

/-- Modelled from the spec: a connected set of mask pixels (§3
RawComponent), kept as its member positions; bounding box, area and
centroid are derived below. -/
structure RawComponent where
  pts : List (Nat × Nat)
deriving DecidableEq

def RawComponent.area (c : RawComponent) : Nat := c.pts.length

def RawComponent.minX (c : RawComponent) : Nat :=
  match c.pts with
  | [] => 0
  | p :: t => t.foldl (fun a q => Nat.min a q.1) p.1

def RawComponent.maxX (c : RawComponent) : Nat :=
  match c.pts with
  | [] => 0
  | p :: t => t.foldl (fun a q => Nat.max a q.1) p.1

def RawComponent.minY (c : RawComponent) : Nat :=
  match c.pts with
  | [] => 0
  | p :: t => t.foldl (fun a q => Nat.min a q.2) p.2

def RawComponent.maxY (c : RawComponent) : Nat :=
  match c.pts with
  | [] => 0
  | p :: t => t.foldl (fun a q => Nat.max a q.2) p.2

def RawComponent.sumX (c : RawComponent) : Nat :=
  c.pts.foldl (fun a p => a + p.1) 0

def RawComponent.sumY (c : RawComponent) : Nat :=
  c.pts.foldl (fun a p => a + p.2) 0

/-- Modelled from the spec: 8-connectivity connected-component labeling
over the dilated mask (§4.4): the closure classes of 8-adjacency over the
mask positions, each turned into a `RawComponent`. -/
def rawComponents (o m : Image) (s : Settings) : List RawComponent :=
  (classesOf (adjR (maskPts o m s)) (maskPts o m s).length).map
    (fun cls => ⟨cls.map (fun i => (maskPts o m s).getD i (0, 0))⟩)

/-- Modelled from the spec: the components surviving the area filter
(§4.4 — components with area < `minArea` are discarded). -/
def components (o m : Image) (s : Settings) : List RawComponent :=
  (rawComponents o m s).filter (fun c => decide (s.minArea ≤ c.area))

/-- Modelled from the spec: `diffCount` is the number of components
surviving the area filter (§3 Result). -/
def diffCountOf (o m : Image) (s : Settings) : Nat :=
  (components o m s).length

/-! ## Region grouper (spec §4.5) -/

/-- Modelled from the spec: the shortest distance between two components'
bounding boxes (§4.5; the spec leaves bounding boxes vs. centroids an
implementer's choice — bounding boxes are used here, with the Chebyshev
gap between the boxes as the distance, held constant). -/
def boxDist (c d : RawComponent) : Nat :=
  max (max (d.minX - c.maxX) (c.minX - d.maxX))
    (max (d.minY - c.maxY) (c.minY - d.maxY))

/-- Modelled from the spec: the "within touch distance" merge relation on
indices into the filtered component list (§4.5). -/
def touchR (cs : List RawComponent) (t : Nat) (i j : Nat) : Bool :=
  decide (i < cs.length) && decide (j < cs.length) &&
    decide (boxDist (cs.getD i ⟨[]⟩) (cs.getD j ⟨[]⟩) ≤ t)

/-- Modelled from the spec: a final Region (§3) — its sequential id and the
source `RawComponent`s it absorbed; bounding box and centroid are derived
from the members. -/
structure Region where
  id : Nat
  members : List RawComponent

def Region.area (r : Region) : Nat :=
  (r.members.map RawComponent.area).sum

def Region.sumX (r : Region) : Nat :=
  (r.members.map RawComponent.sumX).sum

def Region.sumY (r : Region) : Nat :=
  (r.members.map RawComponent.sumY).sum

def Region.minX (r : Region) : Nat :=
  match r.members.map RawComponent.minX with
  | [] => 0
  | v :: t => t.foldl Nat.min v

def Region.maxX (r : Region) : Nat :=
  match r.members.map RawComponent.maxX with
  | [] => 0
  | v :: t => t.foldl Nat.max v

def Region.minY (r : Region) : Nat :=
  match r.members.map RawComponent.minY with
  | [] => 0
  | v :: t => t.foldl Nat.min v

def Region.maxY (r : Region) : Nat :=
  match r.members.map RawComponent.maxY with
  | [] => 0
  | v :: t => t.foldl Nat.max v

/-- Horizontal centroid of a region: the area-weighted mean of its member
centroids, i.e. the mean x-coordinate over all absorbed pixels (§4.5). -/
def Region.cx (r : Region) : ℚ := (r.sumX : ℚ) / (r.area : ℚ)

/-- Vertical centroid of a region (see `Region.cx`). -/
def Region.cy (r : Region) : ℚ := (r.sumY : ℚ) / (r.area : ℚ)

/-- Modelled from the spec: the ungrouped regions, one per closure class of
the touch relation over the filtered components (§4.5), ids not yet
assigned. -/
def preRegions (o m : Image) (s : Settings) : List Region :=
  (classesOf (touchR (components o m s) s.touchDistance)
      (components o m s).length).map
    (fun cls => ⟨0, cls.map (fun i => (components o m s).getD i ⟨[]⟩)⟩)

/-- Modelled from the spec: raster order of centroid (§3 Region) —
top-to-bottom, then left-to-right. -/
def rasterLe (a b : Region) : Bool :=
  decide (a.cy < b.cy ∨ (a.cy = b.cy ∧ a.cx ≤ b.cx))

/-- Insert into a sorted list, keeping it sorted under `le`. -/
def insertLe (le : Region → Region → Bool) (x : Region) :
    List Region → List Region
  | [] => [x]
  | y :: ys => if le x y then x :: y :: ys else y :: insertLe le x ys

/-- Insertion sort under `le`. -/
def sortLe (le : Region → Region → Bool) : List Region → List Region
  | [] => []
  | x :: xs => insertLe le x (sortLe le xs)

/-- Assign sequential ids `k, k+1, ...` down a region list. -/
def assignIds : Nat → List Region → List Region
  | _, [] => []
  | k, r :: t => { r with id := k } :: assignIds (k+1) t

/-- Modelled from the spec: the final ordered regions (§4.5) — closure
classes sorted into raster order of centroid and assigned ids starting
at 1. -/
def finalRegions (o m : Image) (s : Settings) : List Region :=
  assignIds 1 (sortLe rasterLe (preRegions o m s))

/-- Modelled from the spec: `circlesCreated` is the number of final
Regions (§3 Result). -/
def circlesCreatedOf (o m : Image) (s : Settings) : Nat :=
  (finalRegions o m s).length

/-! ## Marker renderer (spec §4.6) -/

/-- Modelled from the spec: alpha-blend the overlay color over a pixel at
`opacity/255` (§4.6). -/
def blendPix (c : Pix) (opacity : Nat) (cur : Pix) : Pix :=
  ⟨(c.r * opacity + cur.r * (255 - opacity)) / 255,
   (c.g * opacity + cur.g * (255 - opacity)) / 255,
   (c.b * opacity + cur.b * (255 - opacity)) / 255⟩

/-- Integer x-centroid used when rendering (the rational centroid rounded
down to a pixel). -/
def Region.cxI (r : Region) : Nat := r.sumX / r.area

/-- Integer y-centroid used when rendering (see `Region.cxI`). -/
def Region.cyI (r : Region) : Nat := r.sumY / r.area

/-- Modelled from the spec: the circle radius — derived from the region's
bounding-box diagonal plus fixed padding (§4.6; the exact formula is an
open choice in the spec §9(c): half the diagonal plus a 10-pixel pad is
used here, held constant). -/
def Region.radius (r : Region) : Nat :=
  Nat.sqrt ((r.maxX - r.minX) ^ 2 + (r.maxY - r.minY) ^ 2) / 2 + 10

/-- Squared Euclidean distance from `(x, y)` to the region's integer
centroid. -/
def Region.dist2 (r : Region) (x y : Nat) : Nat :=
  (max (x - r.cxI) (r.cxI - x)) ^ 2 + (max (y - r.cyI) (r.cyI - y)) ^ 2

/-- Whether `(x, y)` lies on the circle outline of thickness
`circleThickness` around the region (§4.6). -/
def Region.onCircle (r : Region) (thick x y : Nat) : Bool :=
  decide ((r.radius - thick) ^ 2 ≤ r.dist2 x y) &&
    decide (r.dist2 x y ≤ (r.radius + thick) ^ 2)

/-- Modelled from the spec: the id label drawn near the circle (§4.6).
The spec fixes no glyph shapes; the label is modelled as a small
`circleColor` block at the circle's upper right, which is what the claims
(which never inspect label pixels) need of it. -/
def Region.onLabel (r : Region) (x y : Nat) : Bool :=
  decide (r.cxI + r.radius ≤ x) && decide (x < r.cxI + r.radius + 4) &&
    decide (r.cyI - r.radius ≤ y) && decide (y < r.cyI - r.radius + 4)

/-- Whether `(x, y)` lies inside the region's bounding box. -/
def Region.inBox (r : Region) (x y : Nat) : Bool :=
  decide (r.minX ≤ x) && decide (x ≤ r.maxX) &&
    decide (r.minY ≤ y) && decide (y ≤ r.maxY)

/-- Modelled from the spec: what one region contributes to one answer-image
pixel (§4.6): the circle outline and label in `circleColor`, and the
translucent tint over the mask pixels inside the bounding box; all other
pixels pass through. -/
def drawRegionPix (s : Settings) (mask : Nat → Nat → Bool) (r : Region)
    (x y : Nat) (cur : Pix) : Pix :=
  if r.onCircle s.circleThickness x y then s.circleColor
  else if r.onLabel x y then s.circleColor
  else if r.inBox x y && mask x y then blendPix s.overlayColor s.overlayOpacity cur
  else cur

/-- Modelled from the spec: the answer image (§4.6) — a copy of the
original with every final region drawn over it in id order. -/
def answerOf (o m : Image) (s : Settings) : Image :=
  { width := o.width, height := o.height,
    pix := fun x y =>
      (finalRegions o m s).foldl
        (fun cur r => drawRegionPix s (diffMask o m s) r x y cur)
        (o.pix x y) }

/-! ## Compositor (spec §4.7) -/

/-- Modelled from the spec: the background filling the combined canvas
where neither source image reaches (a fixed choice; the spec specifies
only the canvas size and the three drawn elements). -/
def canvasBg : Pix := ⟨255, 255, 255⟩

/-- Modelled from the spec: the combined image (§4.7) — canvas width =
original width + modified width + `imageSpacing`, height = max of the two
heights; original at the left, modified at the right offset by
width+spacing, and a vertical separator of `separatorThickness` centered
in the spacing gap. -/
def combinedOf (o m : Image) (s : Settings) : Image :=
  { width := o.width + m.width + s.imageSpacing,
    height := max o.height m.height,
    pix := fun x y =>
      if x < o.width then
        (if y < o.height then o.pix x y else canvasBg)
      else if x < o.width + s.imageSpacing then
        (if o.width + (s.imageSpacing - s.separatorThickness) / 2 ≤ x ∧
            x < o.width + (s.imageSpacing - s.separatorThickness) / 2 +
              s.separatorThickness then
          s.separatorColor
        else canvasBg)
      else
        (if y < m.height then m.pix (x - o.width - s.imageSpacing) y
         else canvasBg) }

/-! ## Result packager and processing operation (spec §4.8, §6) -/

/-- Modelled from the spec: the assembled `Result` (§3, §4.8). -/
structure Result where
  combined : Image
  answer : Image
  diffCount : Nat
  circlesCreated : Nat

/-- Modelled from the spec: the pipeline failure classifications that apply
to already-decoded images (§7; decode failures and payload limits belong to
the external transport collaborator). -/
inductive PErr
  | dimensionMismatch
deriving DecidableEq

/-- Modelled from the spec: the `Result` assembled from the pipeline stages
(§4.8). -/
def resultOf (o m : Image) (s : Settings) : Result :=
  ⟨combinedOf o m s, answerOf o m s, diffCountOf o m s, circlesCreatedOf o m s⟩

/-- Modelled from the spec: the processing operation (§6) on decoded
images — a pure function from the two images and the settings to a
`Result` or a failure.  Mismatched dimensions are rejected (§4.1 leaves
reject-vs-resample open; rejection is the policy fixed here). -/
def process (o m : Image) (s : Settings) : Except PErr Result :=
  if o.width = m.width ∧ o.height = m.height then .ok (resultOf o m s)
  else .error .dimensionMismatch

/-! ## Settings UI (source: `converter/templates/index.html`) -/

/-- A numeric settings widget of the settings grid: element id, `min`,
`max` and initial `value` attributes.  Embedded from
`converter/templates/index.html` lines 247–300. -/
structure RangeWidget where
  elemId : String
  minAttr : Nat
  maxAttr : Nat
  valueAttr : Nat
deriving DecidableEq

/-- The eight `input type=range` widgets of the settings grid, in document
order (`converter/templates/index.html` lines 247–300; the three color
widgets are `input type=color` and carry no range). -/
def uiRangeWidgets : List RangeWidget :=
  [⟨"threshold", 1, 255, 30⟩,
   ⟨"minArea", 1, 200, 40⟩,
   ⟨"dilationIter", 0, 10, 2⟩,
   ⟨"circleThickness", 1, 10, 2⟩,
   ⟨"overlayOpacity", 0, 255, 100⟩,
   ⟨"touchDistance", 1, 50, 10⟩,
   ⟨"imageSpacing", 0, 100, 10⟩,
   ⟨"separatorThickness", 1, 10, 2⟩]

/-- The ranges the claim (spec §3) declares for the numeric settings, keyed
by widget id. -/
def declaredRanges : List (String × Nat × Nat) :=
  [("threshold", 1, 255),
   ("minArea", 1, 200),
   ("dilationIter", 0, 10),
   ("circleThickness", 1, 10),
   ("overlayOpacity", 0, 255),
   ("touchDistance", 1, 50),
   ("imageSpacing", 0, 100),
   ("separatorThickness", 1, 10)]

/-- JavaScript `parseInt` with radix 10 on a widget value, as `getSettings`
applies it (`index.html` lines 424–438): skip leading whitespace, accept an
optional sign, read the leading run of decimal digits; `none` is `NaN`
(no digits). -/
def parseIntJS (str : String) : Option Int :=
  let cs := str.data.dropWhile (fun c => c = ' ' || c = '\t' || c = '\n')
  let core : List Char → Option Nat := fun ds =>
    let digits := ds.takeWhile (fun c => '0' ≤ c && c ≤ '9')
    if digits.isEmpty then none
    else some (digits.foldl (fun a c => a * 10 + (c.toNat - '0'.toNat)) 0)
  match cs with
  | '-' :: rest => (core rest).map (fun v => -(v : Int))
  | '+' :: rest => (core rest).map (fun v => (v : Int))
  | _ => (core cs).map (fun v => (v : Int))

/-- The settings object `getSettings` returns: eight numeric fields (an
`Option Int`, `none` standing for JavaScript `NaN`) and three color
strings. -/
structure SettingsForm where
  threshold : Option Int
  minArea : Option Int
  dilationIter : Option Int
  circleThickness : Option Int
  circleColor : String
  overlayColor : String
  overlayOpacity : Option Int
  touchDistance : Option Int
  imageSpacing : Option Int
  separatorColor : String
  separatorThickness : Option Int
deriving DecidableEq

/-- The `getSettings` function of `converter/templates/index.html`
(lines 424–438): reads each widget's current value from the DOM (modelled
as a map from element id to value string), parses the numeric ones with
`parseInt`, and passes the color values through. -/
def getSettings (dom : String → String) : SettingsForm :=
  { threshold := parseIntJS (dom "threshold"),
    minArea := parseIntJS (dom "minArea"),
    dilationIter := parseIntJS (dom "dilationIter"),
    circleThickness := parseIntJS (dom "circleThickness"),
    circleColor := dom "circleColor",
    overlayColor := dom "overlayColor",
    overlayOpacity := parseIntJS (dom "overlayOpacity"),
    touchDistance := parseIntJS (dom "touchDistance"),
    imageSpacing := parseIntJS (dom "imageSpacing"),
    separatorColor := dom "separatorColor",
    separatorThickness := parseIntJS (dom "separatorThickness") }

/-! ## Puzzle viewer (source: `view/script.js`) -/

/-- An entry of the uploaded ZIP archive as JSZip presents it to the
`forEach` in `processZipFile` (`view/script.js` lines 123–154): its path,
whether it is a directory, and its extracted content (standing for both
the blob and string forms of `async`). -/
structure ZipEntry where
  name : String
  isDir : Bool
  data : String
deriving DecidableEq

/-- ASCII lowercasing of one character, as JavaScript `toLowerCase` acts on
the ASCII file names the viewer compares against. -/
def lowerChar (c : Char) : Char :=
  if 'A' ≤ c && c ≤ 'Z' then Char.ofNat (c.toNat + 32) else c

/-- Lowercased character list of a ZIP entry name (JavaScript
`relativePath.toLowerCase()`). -/
def lowerName (str : String) : List Char := str.data.map lowerChar

/-- JavaScript `String.prototype.includes` on character lists. -/
def containsSub (pat : List Char) : List Char → Bool
  | [] => pat.isEmpty
  | c :: t => pat.isPrefixOf (c :: t) || containsSub pat t

/-- The predicate picking the combined-image entry in `processZipFile`
(`view/script.js` line 129): a non-directory entry whose lowercased name
includes `"combined"`. -/
def isCombinedEntry (e : ZipEntry) : Bool :=
  !e.isDir && containsSub "combined".data (lowerName e.name)

/-- The predicate picking the answer-image entry (`view/script.js`
line 132): a non-directory entry whose lowercased name includes
`"answer"`. -/
def isAnswerEntry (e : ZipEntry) : Bool :=
  !e.isDir && containsSub "answer".data (lowerName e.name)

/-- The predicate picking the text entry (`view/script.js` line 135): a
non-directory entry whose lowercased name ends with `".txt"`. -/
def isTextEntry (e : ZipEntry) : Bool :=
  !e.isDir && ".txt".data.isSuffixOf (lowerName e.name)

/-- The error message thrown by `processZipFile` when a required entry is
missing (`view/script.js` line 142). -/
def missingFilesMsg : String :=
  "Could not find the required image files. Ensure your ZIP contains files with 'combined' and 'answer' in their names."

/-- The `processZipFile` function of `view/script.js` (lines 123–154) at
the level of an already-loaded archive: scan the entries keeping the first
match of each of the three predicates (the `!entry` guards in the `forEach`
keep only the first); fail if the combined or the answer entry is missing;
otherwise produce the combined blob, the answer blob, and the text content,
an absent text entry yielding the empty string. -/
def processZipFile (entries : List ZipEntry) :
    Except String (String × String × String) :=
  match entries.find? isCombinedEntry, entries.find? isAnswerEntry with
  | some ce, some ae =>
      .ok (ce.data, ae.data,
        ((entries.find? isTextEntry).map ZipEntry.data).getD "")
  | _, _ => .error missingFilesMsg

/-! ## Concrete instances used by the witnesses -/

/-- A solid-black image of the given size. -/
def blankImage (w h : Nat) : Image :=
  ⟨w, h, fun _ _ => ⟨0, 0, 0⟩⟩

/-- A 5×1 black image with white pixels at x = 0 and x = 2: two isolated
differing pixels two cells apart, which one dilation pass bridges. -/
def twoDotImage : Image :=
  ⟨5, 1, fun x _ => if x = 0 ∨ x = 2 then ⟨255, 255, 255⟩ else ⟨0, 0, 0⟩⟩

/-- An in-range settings record (the UI defaults except `minArea = 1` and
`dilationIter = 0`, so that single-pixel differences survive the area
filter). -/
def demoSettings : Settings :=
  ⟨30, 1, 0, 2, ⟨255, 0, 0⟩, ⟨255, 0, 0⟩, 100, 10, 10, ⟨135, 206, 235⟩, 2⟩

/-- A 3×3 mask with only the center set, exercising the dilation lemmas. -/
def centerMask : Nat → Nat → Bool := fun x y =>
  decide (x = 1) && decide (y = 1)

/-- A ZIP entry list holding a combined and an answer image and no text
entry. -/
def demoEntries : List ZipEntry :=
  [⟨"results_combined.jpg", false, "CIMG"⟩,
   ⟨"results_answer.jpg", false, "AIMG"⟩]

/-- A ZIP entry list missing the answer image. -/
def badEntries : List ZipEntry :=
  [⟨"results_combined.jpg", false, "CIMG"⟩]

/-! ## Closure machinery lemmas -/

lemma mem_newElems {R : Nat → Nat → Bool} {n : Nat} {s : List Nat} {j : Nat} :
    j ∈ newElems R n s ↔ j < n ∧ j ∉ s ∧ ∃ a ∈ s, R a j = true := by
  simp [newElems, List.mem_filter, List.mem_range, List.any_eq_true, and_assoc]

lemma subset_satStep (R : Nat → Nat → Bool) (n : Nat) (s : List Nat) :
    s ⊆ satStep R n s :=
  List.subset_append_left s (newElems R n s)

lemma satIter_supset (R : Nat → Nat → Bool) (n : Nat) :
    ∀ (k : Nat) (s : List Nat), s ⊆ satIter R n k s
  | 0, _ => fun _ h => h
  | k+1, s => fun a h =>
      satIter_supset R n k (satStep R n s) (subset_satStep R n s h)

lemma satStep_subset_range (R : Nat → Nat → Bool) (n : Nat) (s : List Nat)
    (hs : s ⊆ List.range n) : satStep R n s ⊆ List.range n := by
  intro a ha
  rcases List.mem_append.mp ha with h | h
  · exact hs h
  · exact List.mem_range.mpr (mem_newElems.mp h).1

lemma satIter_subset_range (R : Nat → Nat → Bool) (n : Nat) :
    ∀ (k : Nat) (s : List Nat), s ⊆ List.range n →
      satIter R n k s ⊆ List.range n
  | 0, _, hs => hs
  | k+1, s, hs =>
      satIter_subset_range R n k (satStep R n s) (satStep_subset_range R n s hs)

lemma nodup_satStep (R : Nat → Nat → Bool) (n : Nat) (s : List Nat)
    (h : s.Nodup) : (satStep R n s).Nodup := by
  refine List.Nodup.append h ((List.nodup_range n).filter _) ?_
  rw [List.disjoint_left]
  intro a ha hb
  exact (mem_newElems.mp hb).2.1 ha

lemma nodup_satIter (R : Nat → Nat → Bool) (n : Nat) :
    ∀ (k : Nat) (s : List Nat), s.Nodup → (satIter R n k s).Nodup
  | 0, _, h => h
  | k+1, s, h => nodup_satIter R n k (satStep R n s) (nodup_satStep R n s h)

lemma length_le_of_nodup_subset_range {s : List Nat} {n : Nat}
    (hd : s.Nodup) (hs : s ⊆ List.range n) : s.length ≤ n := by
  have h1 : s.toFinset.card = s.length := List.toFinset_card_of_nodup hd
  have h2 : (List.range n).toFinset.card = n := by
    rw [List.toFinset_card_of_nodup (List.nodup_range n), List.length_range]
  have h3 : s.toFinset ⊆ (List.range n).toFinset := fun a ha =>
    List.mem_toFinset.mpr (hs (List.mem_toFinset.mp ha))
  calc s.length = s.toFinset.card := h1.symm
    _ ≤ (List.range n).toFinset.card := Finset.card_le_card h3
    _ = n := h2

lemma satIter_stab (R : Nat → Nat → Bool) (n : Nat) :
    ∀ (k : Nat) (s : List Nat), newElems R n s = [] → satIter R n k s = s
  | 0, _, _ => rfl
  | k+1, s, h => by
      have hs : satStep R n s = s := by simp [satStep, h]
      show satIter R n k (satStep R n s) = s
      rw [hs]
      exact satIter_stab R n k s h

lemma newElems_satIter_eq_nil (R : Nat → Nat → Bool) (n : Nat) :
    ∀ (k : Nat) (s : List Nat), s.Nodup → s ⊆ List.range n →
      n + 1 ≤ s.length + k → newElems R n (satIter R n k s) = []
  | 0, s, hd, hs, hlen =>
      absurd (length_le_of_nodup_subset_range hd hs) (by omega)
  | k+1, s, hd, hs, hlen => by
      by_cases hne : newElems R n s = []
      · rw [satIter_stab R n (k+1) s hne]
        exact hne
      · show newElems R n (satIter R n k (satStep R n s)) = []
        apply newElems_satIter_eq_nil R n k (satStep R n s)
          (nodup_satStep R n s hd) (satStep_subset_range R n s hs)
        have h1 : 0 < (newElems R n s).length := List.length_pos.mpr hne
        have h2 : (satStep R n s).length = s.length + (newElems R n s).length :=
          List.length_append s (newElems R n s)
        omega

lemma newElems_reachSet (R : Nat → Nat → Bool) (n i : Nat) (hi : i < n) :
    newElems R n (reachSet R n i) = [] := by
  apply newElems_satIter_eq_nil R n n [i] (List.nodup_singleton i)
  · intro a ha
    rw [List.mem_singleton] at ha
    subst ha
    exact List.mem_range.mpr hi
  · simp only [List.length_singleton]
    omega

lemma mem_reachSet_self (R : Nat → Nat → Bool) (n i : Nat) :
    i ∈ reachSet R n i :=
  satIter_supset R n n [i] (List.mem_singleton.mpr rfl)

lemma reachSet_subset_range (R : Nat → Nat → Bool) (n i : Nat) (hi : i < n) :
    reachSet R n i ⊆ List.range n := by
  apply satIter_subset_range R n n [i]
  intro a ha
  rw [List.mem_singleton] at ha
  subst ha
  exact List.mem_range.mpr hi

lemma reachSet_closed (R : Nat → Nat → Bool) (n i : Nat) (hi : i < n)
    {a j : Nat} (ha : a ∈ reachSet R n i) (hj : j < n) (hR : R a j = true) :
    j ∈ reachSet R n i := by
  by_contra hjn
  have hmem : j ∈ newElems R n (reachSet R n i) :=
    mem_newElems.mpr ⟨hj, hjn, a, ha, hR⟩
  rw [newElems_reachSet R n i hi] at hmem
  exact absurd hmem (List.not_mem_nil j)

lemma rtg_of_mem_satIter (R : Nat → Nat → Bool) (n : Nat) :
    ∀ (k : Nat) (s : List Nat) (j : Nat), j ∈ satIter R n k s →
      ∃ a ∈ s, Relation.ReflTransGen (fun u v => R u v = true) a j
  | 0, _, j, hj => ⟨j, hj, .refl⟩
  | k+1, s, j, hj => by
      obtain ⟨b, hb, hbj⟩ := rtg_of_mem_satIter R n k (satStep R n s) j hj
      rcases List.mem_append.mp hb with h | h
      · exact ⟨b, h, hbj⟩
      · obtain ⟨_, _, a, ha, hab⟩ := mem_newElems.mp h
        exact ⟨a, ha, .head hab hbj⟩

lemma rtg_of_mem_reachSet {R : Nat → Nat → Bool} {n i j : Nat}
    (hj : j ∈ reachSet R n i) :
    Relation.ReflTransGen (fun u v => R u v = true) i j := by
  obtain ⟨a, ha, h⟩ := rtg_of_mem_satIter R n n [i] j hj
  rw [List.mem_singleton] at ha
  subst ha
  exact h

lemma mem_reachSet_of_rtg (R : Nat → Nat → Bool) (n : Nat)
    (hRb : ∀ a b, R a b = true → b < n) {i j : Nat} (hi : i < n)
    (h : Relation.ReflTransGen (fun u v => R u v = true) i j) :
    j ∈ reachSet R n i := by
  induction h with
  | refl => exact mem_reachSet_self R n i
  | tail _ hbc ih => exact reachSet_closed R n i hi ih (hRb _ _ hbc) hbc

/-! ## Representative (union-find root) lemmas -/

lemma foldr_min_le_init : ∀ (l : List Nat) (a : Nat), l.foldr Nat.min a ≤ a
  | [], a => le_refl a
  | x :: t, a => le_trans (Nat.min_le_right x (t.foldr Nat.min a))
      (foldr_min_le_init t a)

lemma foldr_min_le_mem :
    ∀ (l : List Nat) (a x : Nat), x ∈ l → l.foldr Nat.min a ≤ x
  | [], _, _, hx => absurd hx (List.not_mem_nil _)
  | y :: t, a, x, hx => by
      rcases List.mem_cons.mp hx with h | h
      · subst h
        exact Nat.min_le_left x (t.foldr Nat.min a)
      · exact le_trans (Nat.min_le_right y (t.foldr Nat.min a))
          (foldr_min_le_mem t a x h)

lemma foldr_min_mem_cons : ∀ (l : List Nat) (a : Nat), l.foldr Nat.min a ∈ a :: l
  | [], a => List.mem_singleton.mpr rfl
  | x :: t, a => by
      show (if x ≤ t.foldr Nat.min a then x else t.foldr Nat.min a) ∈ a :: x :: t
      split
      · exact List.mem_cons_of_mem a (List.mem_cons_self x t)
      · rcases List.mem_cons.mp (foldr_min_mem_cons t a) with h2 | h2
        · rw [h2]
          exact List.mem_cons_self a (x :: t)
        · exact List.mem_cons_of_mem a (List.mem_cons_of_mem x h2)

lemma rep_mem_reachSet (R : Nat → Nat → Bool) (n i : Nat) :
    rep R n i ∈ reachSet R n i := by
  rcases List.mem_cons.mp (foldr_min_mem_cons (reachSet R n i) i) with h | h
  · rw [rep, h]
    exact mem_reachSet_self R n i
  · exact h

lemma rep_le_mem (R : Nat → Nat → Bool) (n i : Nat) {x : Nat}
    (hx : x ∈ reachSet R n i) : rep R n i ≤ x :=
  foldr_min_le_mem (reachSet R n i) i x hx

lemma rep_le_self (R : Nat → Nat → Bool) (n i : Nat) : rep R n i ≤ i :=
  foldr_min_le_init (reachSet R n i) i

lemma rep_lt (R : Nat → Nat → Bool) (n i : Nat) (hi : i < n) : rep R n i < n :=
  List.mem_range.mp (reachSet_subset_range R n i hi (rep_mem_reachSet R n i))

lemma rep_eq_of_reachSet_equiv {R : Nat → Nat → Bool} {n i j : Nat}
    (h : ∀ a, a ∈ reachSet R n i ↔ a ∈ reachSet R n j) :
    rep R n i = rep R n j :=
  Nat.le_antisymm
    (rep_le_mem R n i ((h (rep R n j)).mpr (rep_mem_reachSet R n j)))
    (rep_le_mem R n j ((h (rep R n i)).mp (rep_mem_reachSet R n i)))

lemma rtg_symm {R : Nat → Nat → Bool}
    (hRs : ∀ a b, R a b = true → R b a = true) {i j : Nat}
    (h : Relation.ReflTransGen (fun u v => R u v = true) i j) :
    Relation.ReflTransGen (fun u v => R u v = true) j i :=
  Relation.ReflTransGen.symmetric (fun a b hab => hRs a b hab) h

lemma rep_eq_iff_rtg (R : Nat → Nat → Bool) (n : Nat)
    (hRb : ∀ a b, R a b = true → b < n)
    (hRs : ∀ a b, R a b = true → R b a = true) {i j : Nat}
    (hi : i < n) (hj : j < n) :
    rep R n i = rep R n j ↔
      Relation.ReflTransGen (fun u v => R u v = true) i j := by
  constructor
  · intro h
    have h1 : Relation.ReflTransGen (fun u v => R u v = true) i (rep R n i) :=
      rtg_of_mem_reachSet (rep_mem_reachSet R n i)
    have h2 : Relation.ReflTransGen (fun u v => R u v = true) (rep R n i) j := by
      rw [h]
      exact rtg_symm hRs (rtg_of_mem_reachSet (rep_mem_reachSet R n j))
    exact h1.trans h2
  · intro h
    apply rep_eq_of_reachSet_equiv
    intro a
    constructor
    · intro ha
      exact mem_reachSet_of_rtg R n hRb hj
        ((rtg_symm hRs h).trans (rtg_of_mem_reachSet ha))
    · intro ha
      exact mem_reachSet_of_rtg R n hRb hi
        (h.trans (rtg_of_mem_reachSet ha))

lemma rep_idem (R : Nat → Nat → Bool) (n : Nat)
    (hRb : ∀ a b, R a b = true → b < n)
    (hRs : ∀ a b, R a b = true → R b a = true) {i : Nat} (hi : i < n) :
    rep R n (rep R n i) = rep R n i :=
  (rep_eq_iff_rtg R n hRb hRs (rep_lt R n i hi) hi).mpr
    (rtg_symm hRs (rtg_of_mem_reachSet (rep_mem_reachSet R n i)))

/-! ## Counting classes -/

lemma repsList_length_le (R : Nat → Nat → Bool) (n : Nat) :
    (repsList R n).length ≤ n := by
  have h := List.length_filter_le (fun i => rep R n i == i) (List.range n)
  rw [List.length_range] at h
  exact h

lemma repsList_length_eq_iff (R : Nat → Nat → Bool) (n : Nat) :
    (repsList R n).length = n ↔ ∀ i, i < n → rep R n i = i := by
  constructor
  · intro h
    have hsub : (repsList R n).Sublist (List.range n) :=
      List.filter_sublist (List.range n)
    have he : repsList R n = List.range n :=
      hsub.eq_of_length (by rw [h, List.length_range])
    intro i hi
    have hmem : i ∈ repsList R n := he ▸ List.mem_range.mpr hi
    exact beq_iff_eq.mp (List.mem_filter.mp hmem).2
  · intro h
    have he : repsList R n = List.range n :=
      List.filter_eq_self.mpr
        (fun a ha => beq_iff_eq.mpr (h a (List.mem_range.mp ha)))
    rw [he, List.length_range]

lemma reachSet_singleton (R : Nat → Nat → Bool) (n i : Nat)
    (hno : ∀ j, j < n → j ≠ i → R i j = false) : reachSet R n i = [i] := by
  have hnil : newElems R n [i] = [] := by
    apply List.filter_eq_nil_iff.mpr
    intro j hj h
    rw [Bool.and_eq_true, decide_eq_true_iff] at h
    obtain ⟨hnmem, hany⟩ := h
    obtain ⟨a, ha, hR⟩ := List.any_eq_true.mp hany
    rw [List.mem_singleton] at ha
    rw [ha] at hR
    have hji : j ≠ i := fun e => hnmem (List.mem_singleton.mpr e)
    rw [hno j (List.mem_range.mp hj) hji] at hR
    exact absurd hR (by simp)
  exact satIter_stab R n n [i] hnil

lemma rep_eq_self_of_no (R : Nat → Nat → Bool) (n i : Nat)
    (hno : ∀ j, j < n → j ≠ i → R i j = false) : rep R n i = i := by
  rw [rep, reachSet_singleton R n i hno]
  show Nat.min i i = i
  exact Nat.min_self i

lemma rep_all_self_iff (R : Nat → Nat → Bool) (n : Nat)
    (hRb : ∀ a b, R a b = true → b < n)
    (hRs : ∀ a b, R a b = true → R b a = true) :
    (∀ i, i < n → rep R n i = i) ↔
      (∀ i j, i < n → j < n → i ≠ j → R i j = false) := by
  constructor
  · intro h i j hi hj hne
    by_cases hR : R i j = true
    · have heq : rep R n i = rep R n j :=
        (rep_eq_iff_rtg R n hRb hRs hi hj).mpr (Relation.ReflTransGen.single hR)
      rw [h i hi, h j hj] at heq
      exact absurd heq hne
    · cases hb : R i j
      · rfl
      · exact absurd hb hR
  · intro h i hi
    exact rep_eq_self_of_no R n i
      (fun j hj hne => h i j hi hj (fun e => hne e.symm))

/-! ## Class membership -/

lemma mem_class_iff {R : Nat → Nat → Bool} {n c i : Nat} :
    i ∈ (List.range n).filter (fun a => rep R n a == c) ↔
      i < n ∧ rep R n i = c := by
  simp [List.mem_filter, List.mem_range]

lemma sameClass_iff_rep_eq (R : Nat → Nat → Bool) (n : Nat)
    (hRb : ∀ a b, R a b = true → b < n)
    (hRs : ∀ a b, R a b = true → R b a = true) {i j : Nat}
    (hi : i < n) (hj : j < n) :
    (∃ cls ∈ classesOf R n, i ∈ cls ∧ j ∈ cls) ↔ rep R n i = rep R n j := by
  constructor
  · rintro ⟨cls, hcls, hicls, hjcls⟩
    rw [classesOf, List.mem_map] at hcls
    obtain ⟨c, _, rfl⟩ := hcls
    have h1 := (mem_class_iff.mp hicls).2
    have h2 := (mem_class_iff.mp hjcls).2
    rw [h1, h2]
  · intro h
    refine ⟨(List.range n).filter (fun a => rep R n a == rep R n i), ?_, ?_, ?_⟩
    · rw [classesOf, List.mem_map]
      refine ⟨rep R n i, ?_, rfl⟩
      rw [repsList]
      apply List.mem_filter.mpr
      exact ⟨List.mem_range.mpr (rep_lt R n i hi),
        beq_iff_eq.mpr (rep_idem R n hRb hRs hi)⟩
    · exact mem_class_iff.mpr ⟨hi, rfl⟩
    · exact mem_class_iff.mpr ⟨hj, h.symm⟩

/-! ## Touch relation: bounds and symmetry -/

lemma touchR_bounds {cs : List RawComponent} {t i j : Nat}
    (h : touchR cs t i j = true) : i < cs.length ∧ j < cs.length := by
  rw [touchR, Bool.and_eq_true, Bool.and_eq_true,
    decide_eq_true_iff, decide_eq_true_iff] at h
  exact ⟨h.1.1, h.1.2⟩

lemma boxDist_comm (c d : RawComponent) : boxDist c d = boxDist d c := by
  rw [boxDist, boxDist,
    Nat.max_comm (d.minX - c.maxX) (c.minX - d.maxX),
    Nat.max_comm (d.minY - c.maxY) (c.minY - d.maxY)]

lemma touchR_symm (cs : List RawComponent) (t : Nat) (a b : Nat)
    (h : touchR cs t a b = true) : touchR cs t b a = true := by
  rw [touchR, Bool.and_eq_true, Bool.and_eq_true,
    decide_eq_true_iff, decide_eq_true_iff, decide_eq_true_iff] at h ⊢
  exact ⟨⟨h.1.2, h.1.1⟩, boxDist_comm _ _ ▸ h.2⟩

lemma touchR_of_close {cs : List RawComponent} {t i j : Nat}
    (hi : i < cs.length) (hj : j < cs.length)
    (hd : boxDist (cs.getD i ⟨[]⟩) (cs.getD j ⟨[]⟩) ≤ t) :
    touchR cs t i j = true := by
  rw [touchR, Bool.and_eq_true, Bool.and_eq_true,
    decide_eq_true_iff, decide_eq_true_iff, decide_eq_true_iff]
  exact ⟨⟨hi, hj⟩, hd⟩

lemma touchR_false_of_far {cs : List RawComponent} {t i j : Nat}
    (hd : ¬ boxDist (cs.getD i ⟨[]⟩) (cs.getD j ⟨[]⟩) ≤ t) :
    touchR cs t i j = false := by
  cases h : touchR cs t i j
  · rfl
  · exfalso
    rw [touchR] at h
    simp only [Bool.and_eq_true, decide_eq_true_iff] at h
    exact hd h.2

/-! ## Length bookkeeping through grouping -/

lemma length_insertLe (le : Region → Region → Bool) (x : Region) :
    ∀ l : List Region, (insertLe le x l).length = l.length + 1
  | [] => rfl
  | y :: ys => by
      rw [insertLe]
      split
      · rfl
      · rw [List.length_cons, List.length_cons, length_insertLe le x ys]

lemma length_sortLe (le : Region → Region → Bool) :
    ∀ l : List Region, (sortLe le l).length = l.length
  | [] => rfl
  | x :: xs => by
      rw [sortLe, length_insertLe, length_sortLe le xs, List.length_cons]

lemma length_assignIds : ∀ (k : Nat) (l : List Region),
    (assignIds k l).length = l.length
  | _, [] => rfl
  | k, r :: t => by
      rw [assignIds, List.length_cons, List.length_cons,
        length_assignIds (k+1) t]

lemma circlesCreatedOf_eq_reps (o m : Image) (s : Settings) :
    circlesCreatedOf o m s =
      (repsList (touchR (components o m s) s.touchDistance)
        (components o m s).length).length := by
  rw [circlesCreatedOf, finalRegions, length_assignIds, length_sortLe,
    preRegions, List.length_map, classesOf, List.length_map]

lemma process_ok {o m : Image} {s : Settings} {r : Result}
    (h : process o m s = Except.ok r) : r = resultOf o m s := by
  rw [process] at h
  split at h
  · exact (Except.ok.injEq _ _ ▸ h).symm
  · exact absurd h (by simp)

/-! ## Dilation lemmas -/

lemma dilateStep_superset (w h : Nat) (mask : Nat → Nat → Bool) (x y : Nat)
    (hx : x < w) (hy : y < h) (hm : mask x y = true) :
    dilateStep w h mask x y = true := by
  rw [dilateStep, hm]
  simp [hx, hy]

lemma dilateIter_superset (w h : Nat) (mask : Nat → Nat → Bool)
    (n x y : Nat) (hx : x < w) (hy : y < h) (hm : mask x y = true) :
    dilateIter w h n mask x y = true := by
  induction n with
  | zero => exact hm
  | succ k ih => exact dilateStep_superset w h (dilateIter w h k mask) x y hx hy ih

lemma dilateIter_add (w h : Nat) (mask : Nat → Nat → Bool) (b : Nat) :
    ∀ a : Nat, dilateIter w h (b + a) mask = dilateIter w h a (dilateIter w h b mask)
  | 0 => rfl
  | a+1 => by
      show dilateStep w h (dilateIter w h (b + a) mask) =
        dilateStep w h (dilateIter w h a (dilateIter w h b mask))
      rw [dilateIter_add w h mask b a]

lemma dilateStep_all_false (w h : Nat) (mask : Nat → Nat → Bool)
    (hm : ∀ x y, mask x y = false) (x y : Nat) :
    dilateStep w h mask x y = false := by
  rw [dilateStep]
  simp [hm]

lemma dilateIter_all_false (w h : Nat) (mask : Nat → Nat → Bool)
    (hm : ∀ x y, mask x y = false) (n : Nat) :
    ∀ x y, dilateIter w h n mask x y = false := by
  induction n with
  | zero => exact hm
  | succ k ih => exact dilateStep_all_false w h (dilateIter w h k mask) ih

/-! ## The identical-image collapse -/

lemma pixDist_self (p : Pix) : pixDist p p = 0 := by
  rw [pixDist]
  simp

lemma baseMask_all_false {o m : Image} {s : Settings}
    (hpix : ∀ x y, x < o.width → y < o.height → o.pix x y = m.pix x y) :
    ∀ x y, baseMask o m s x y = false := by
  intro x y
  rw [baseMask]
  by_cases hx : x < o.width
  · by_cases hy : y < o.height
    · rw [hpix x y hx hy, pixDist_self]
      simp
    · simp [hy]
  · simp [hx]

lemma maskPts_nil {o m : Image} {s : Settings}
    (h : ∀ x y, diffMask o m s x y = false) : maskPts o m s = [] := by
  rw [maskPts]
  apply List.filter_eq_nil_iff.mpr
  intro p _
  rw [h p.1 p.2]
  simp

lemma components_nil {o m : Image} {s : Settings}
    (h : maskPts o m s = []) : components o m s = [] := by
  rw [components, rawComponents, h]
  rfl

lemma finalRegions_nil {o m : Image} {s : Settings}
    (h : components o m s = []) : finalRegions o m s = [] := by
  rw [finalRegions, preRegions, h]
  rfl

/-! ## Raster order: totality, transitivity, sortedness -/

lemma rasterLe_total (a b : Region) :
    rasterLe a b = true ∨ rasterLe b a = true := by
  rw [rasterLe, rasterLe, decide_eq_true_iff, decide_eq_true_iff]
  rcases lt_trichotomy a.cy b.cy with h | h | h
  · exact Or.inl (Or.inl h)
  · rcases le_total a.cx b.cx with h2 | h2
    · exact Or.inl (Or.inr ⟨h, h2⟩)
    · exact Or.inr (Or.inr ⟨h.symm, h2⟩)
  · exact Or.inr (Or.inl h)

lemma rasterLe_trans {a b c : Region} (h1 : rasterLe a b = true)
    (h2 : rasterLe b c = true) : rasterLe a c = true := by
  rw [rasterLe, decide_eq_true_iff] at h1 h2 ⊢
  rcases h1 with h1 | ⟨h1e, h1x⟩
  · rcases h2 with h2 | ⟨h2e, _⟩
    · exact Or.inl (h1.trans h2)
    · exact Or.inl (h2e ▸ h1)
  · rcases h2 with h2 | ⟨h2e, h2x⟩
    · exact Or.inl (h1e ▸ h2)
    · exact Or.inr ⟨h1e.trans h2e, h1x.trans h2x⟩

lemma mem_insertLe {le : Region → Region → Bool} {x a : Region} :
    ∀ {l : List Region}, a ∈ insertLe le x l ↔ a = x ∨ a ∈ l := by
  intro l
  induction l with
  | nil => simp [insertLe]
  | cons y ys ih =>
      rw [insertLe]
      split
      · simp [List.mem_cons]
      · simp only [List.mem_cons, ih]
        tauto

lemma pairwise_insertLe (x : Region) :
    ∀ {l : List Region},
      List.Pairwise (fun a b => rasterLe a b = true) l →
      List.Pairwise (fun a b => rasterLe a b = true) (insertLe rasterLe x l)
  | [], _ => List.pairwise_cons.mpr ⟨by simp, List.Pairwise.nil⟩
  | y :: ys, hp => by
      obtain ⟨hy, hys⟩ := List.pairwise_cons.mp hp
      rw [insertLe]
      split
      · rename_i hxy
        apply List.pairwise_cons.mpr
        refine ⟨?_, hp⟩
        intro b hb
        rcases List.mem_cons.mp hb with h | h
        · exact h ▸ hxy
        · exact rasterLe_trans hxy (hy b h)
      · rename_i hxy
        apply List.pairwise_cons.mpr
        constructor
        · intro b hb
          rcases mem_insertLe.mp hb with h | h
          · rw [h]
            rcases rasterLe_total x y with h2 | h2
            · exact absurd h2 hxy
            · exact h2
          · exact hy b h
        · exact pairwise_insertLe x hys

lemma pairwise_sortLe :
    ∀ l : List Region,
      List.Pairwise (fun a b => rasterLe a b = true) (sortLe rasterLe l)
  | [] => List.Pairwise.nil
  | x :: xs => pairwise_insertLe x (pairwise_sortLe xs)

lemma rasterLe_set_id (a b : Region) (i j : Nat) :
    rasterLe { a with id := i } { b with id := j } = rasterLe a b := rfl

lemma mem_assignIds {b : Region} :
    ∀ {k : Nat} {l : List Region}, b ∈ assignIds k l →
      ∃ y ∈ l, ∃ j, b = { y with id := j }
  | _, [], hb => absurd hb (List.not_mem_nil b)
  | k, r :: t, hb => by
      rw [assignIds] at hb
      rcases List.mem_cons.mp hb with h | h
      · exact ⟨r, List.mem_cons_self r t, k, h⟩
      · obtain ⟨y, hy, j, he⟩ := mem_assignIds h
        exact ⟨y, List.mem_cons_of_mem r hy, j, he⟩

lemma pairwise_assignIds :
    ∀ (k : Nat) (l : List Region),
      List.Pairwise (fun a b => rasterLe a b = true) l →
      List.Pairwise (fun a b => rasterLe a b = true) (assignIds k l)
  | _, [], _ => List.Pairwise.nil
  | k, r :: t, hp => by
      obtain ⟨hr, ht⟩ := List.pairwise_cons.mp hp
      rw [assignIds]
      apply List.pairwise_cons.mpr
      constructor
      · intro b hb
        obtain ⟨y, hy, j, rfl⟩ := mem_assignIds hb
        rw [rasterLe_set_id]
        exact hr y hy
      · exact pairwise_assignIds (k+1) t ht

lemma assignIds_map_id : ∀ (k : Nat) (l : List Region),
    (assignIds k l).map Region.id = List.range' k l.length
  | _, [] => rfl
  | k, r :: t => by
      rw [assignIds, List.map_cons, assignIds_map_id (k+1) t]
      rfl

/-! ## Viewer helper lemmas -/

lemma processZipFile_eq_of_some {entries : List ZipEntry} {ce ae : ZipEntry}
    (hc : entries.find? isCombinedEntry = some ce)
    (ha : entries.find? isAnswerEntry = some ae) :
    processZipFile entries =
      Except.ok (ce.data, ae.data,
        ((entries.find? isTextEntry).map ZipEntry.data).getD "") := by
  simp only [processZipFile, hc, ha]

lemma processZipFile_error_of_no_combined {entries : List ZipEntry}
    (hc : entries.find? isCombinedEntry = none) :
    ∃ e, processZipFile entries = Except.error e := by
  refine ⟨missingFilesMsg, ?_⟩
  simp only [processZipFile, hc]

lemma processZipFile_error_of_no_answer {entries : List ZipEntry}
    (ha : entries.find? isAnswerEntry = none) :
    ∃ e, processZipFile entries = Except.error e := by
  cases hc : entries.find? isCombinedEntry
  · exact processZipFile_error_of_no_combined hc
  · refine ⟨missingFilesMsg, ?_⟩
    simp only [processZipFile, hc, ha]

lemma all_false_of_find?_eq_none {p : ZipEntry → Bool} {entries : List ZipEntry}
    (h : entries.find? p = none) : ∀ en ∈ entries, p en = false := by
  intro en hen
  have hne := List.find?_eq_none.mp h en hen
  cases hb : p en
  · rfl
  · exact absurd hb hne

lemma find?_eq_none_of_all_false {p : ZipEntry → Bool} {entries : List ZipEntry}
    (h : ∀ en ∈ entries, p en = false) : entries.find? p = none :=
  List.find?_eq_none.mpr (fun en hen hb => by rw [h en hen] at hb; exact absurd hb (by simp))

lemma resultOf_diffCount (o m : Image) (s : Settings) :
    (resultOf o m s).diffCount = diffCountOf o m s := rfl

set_option maxHeartbeats 2000000 in
lemma resultOf_circlesCreated (o m : Image) (s : Settings) :
    (resultOf o m s).circlesCreated = circlesCreatedOf o m s := rfl

set_option maxHeartbeats 2000000 in
lemma answerOf_pix (o m : Image) (s : Settings) (x y : Nat) :
    (answerOf o m s).pix x y =
      (finalRegions o m s).foldl
        (fun cur r => drawRegionPix s (diffMask o m s) r x y cur)
        (o.pix x y) := rfl

lemma resultOf_answer (o m : Image) (s : Settings) :
    (resultOf o m s).answer = answerOf o m s := rfl

/-! ## Claim theorems -/

/-- C1: for every pair of pixel-identical original and modified images and
every in-range settings record, `process` returns a valid `Result` (not a
failure) with `diffCount = 0`, `circlesCreated = 0`, and an answer image
pixel-for-pixel equal to the original. -/
theorem claim_c1 (o m : Image) (s : Settings)
    (hpix : ∀ x y, x < o.width → y < o.height → o.pix x y = m.pix x y)
    (hw : o.width = m.width) (hh : o.height = m.height)
    (_hs : SettingsInRange s) :
    process o m s = Except.ok (resultOf o m s) ∧
    (resultOf o m s).diffCount = 0 ∧
    (resultOf o m s).circlesCreated = 0 ∧
    ∀ x y, x < o.width → y < o.height →
      (resultOf o m s).answer.pix x y = o.pix x y := by
  have hbase : ∀ x y, baseMask o m s x y = false := baseMask_all_false hpix
  have hdm : ∀ x y, diffMask o m s x y = false := by
    intro x y
    exact dilateIter_all_false o.width o.height (baseMask o m s) hbase
      s.dilationIter x y
  have hmp : maskPts o m s = [] := maskPts_nil hdm
  have hcomp : components o m s = [] := components_nil hmp
  have hfr : finalRegions o m s = [] := finalRegions_nil hcomp
  refine ⟨?_, ?_, ?_, ?_⟩
  · rw [process, if_pos ⟨hw, hh⟩]
  · rw [resultOf_diffCount, diffCountOf, hcomp]
    rfl
  · rw [resultOf_circlesCreated, circlesCreatedOf, hfr]
    rfl
  · intro x y _ _
    rw [resultOf_answer, answerOf_pix, hfr]
    exact List.foldl_nil

theorem claim_c1_witness :
    process (blankImage 2 2) (blankImage 2 2) demoSettings =
      Except.ok (resultOf (blankImage 2 2) (blankImage 2 2) demoSettings) ∧
    (resultOf (blankImage 2 2) (blankImage 2 2) demoSettings).diffCount = 0 ∧
    (resultOf (blankImage 2 2) (blankImage 2 2) demoSettings).circlesCreated = 0 ∧
    ∀ x y, x < (blankImage 2 2).width → y < (blankImage 2 2).height →
      (resultOf (blankImage 2 2) (blankImage 2 2) demoSettings).answer.pix x y =
        (blankImage 2 2).pix x y :=
  claim_c1 (blankImage 2 2) (blankImage 2 2) demoSettings
    (fun _ _ _ _ => rfl) rfl rfl (by decide)

/-- C2: for every input image pair and settings, the `Result` satisfies
`circlesCreated ≤ diffCount`, with equality iff no two components surviving
the area filter are within `touchDistance` of each other. -/
theorem claim_c2 (o m : Image) (s : Settings) (r : Result)
    (hr : process o m s = Except.ok r) :
    r.circlesCreated ≤ r.diffCount ∧
    (r.circlesCreated = r.diffCount ↔
      ∀ i j, i < (components o m s).length → j < (components o m s).length →
        i ≠ j →
        ¬ boxDist ((components o m s).getD i ⟨[]⟩)
            ((components o m s).getD j ⟨[]⟩) ≤ s.touchDistance) := by
  obtain rfl : r = resultOf o m s := process_ok hr
  have hRb : ∀ a b,
      touchR (components o m s) s.touchDistance a b = true →
        b < (components o m s).length :=
    fun _ _ h => (touchR_bounds h).2
  have hRs := touchR_symm (components o m s) s.touchDistance
  have hdc : diffCountOf o m s = (components o m s).length := rfl
  constructor
  · rw [resultOf_circlesCreated, resultOf_diffCount,
      circlesCreatedOf_eq_reps, hdc]
    exact repsList_length_le _ _
  · rw [resultOf_circlesCreated, resultOf_diffCount,
      circlesCreatedOf_eq_reps, hdc,
      repsList_length_eq_iff, rep_all_self_iff _ _ hRb hRs]
    constructor
    · intro h i j hi hj hne hd
      have h1 := touchR_of_close hi hj hd
      rw [h i j hi hj hne] at h1
      exact absurd h1 (by simp)
    · intro h i j hi hj hne
      exact touchR_false_of_far (h i j hi hj hne)

theorem claim_c2_witness :
    (resultOf (blankImage 5 1) twoDotImage demoSettings).circlesCreated ≤
      (resultOf (blankImage 5 1) twoDotImage demoSettings).diffCount ∧
    ((resultOf (blankImage 5 1) twoDotImage demoSettings).circlesCreated =
      (resultOf (blankImage 5 1) twoDotImage demoSettings).diffCount ↔
      ∀ i j, i < (components (blankImage 5 1) twoDotImage demoSettings).length →
        j < (components (blankImage 5 1) twoDotImage demoSettings).length →
        i ≠ j →
        ¬ boxDist
            ((components (blankImage 5 1) twoDotImage demoSettings).getD i ⟨[]⟩)
            ((components (blankImage 5 1) twoDotImage demoSettings).getD j ⟨[]⟩) ≤
          demoSettings.touchDistance) :=
  claim_c2 (blankImage 5 1) twoDotImage demoSettings
    (resultOf (blankImage 5 1) twoDotImage demoSettings) rfl

/-- C3: dilation only adds `true` pixels — after any number of passes the
mask is a superset of the input mask on the image rectangle — and
`dilationIter = 0` returns the mask unchanged. -/
theorem claim_c3 :
    (∀ (w h : Nat) (mask : Nat → Nat → Bool) (n x y : Nat),
       x < w → y < h → mask x y = true → dilateIter w h n mask x y = true) ∧
    (∀ (w h : Nat) (mask : Nat → Nat → Bool), dilateIter w h 0 mask = mask) :=
  ⟨fun w h mask n x y hx hy hm => dilateIter_superset w h mask n x y hx hy hm,
   fun _ _ _ => rfl⟩

theorem claim_c3_witness : dilateIter 3 3 1 centerMask 1 1 = true :=
  claim_c3.1 3 3 centerMask 1 1 1 (by decide) (by decide) (by decide)

/-- C4 counterexample: increasing `dilationIter` can strictly decrease
`diffCount`.  On a 5×1 pair differing at x = 0 and x = 2 with
`minArea = 1`, no dilation yields two surviving components but one dilation
pass bridges them into a single component, so the claimed monotonicity
fails at `d₁ = 0 ≤ d₂ = 1`. -/
theorem claim_c4_counterexample :
    ¬ (∀ (o m : Image) (s : Settings) (d₁ d₂ : Nat), d₁ ≤ d₂ →
        (resultOf o m { s with dilationIter := d₁ }).diffCount ≤
          (resultOf o m { s with dilationIter := d₂ }).diffCount) := by
  intro h
  exact absurd (h (blankImage 5 1) twoDotImage demoSettings 0 1 (Nat.zero_le 1))
    (by decide)

/-- C4 (amended): increasing `dilationIter` while holding the other
settings fixed never shrinks the dilated difference mask — for
`d₁ ≤ d₂` the mask at `d₂` is a pointwise superset of the mask at `d₁` on
the image rectangle.  (`diffCount` itself is not monotone: merging two
surviving components under dilation decreases it, see the
counterexample.) -/
theorem claim_c4_amended (o m : Image) (s : Settings) (d₁ d₂ x y : Nat)
    (hd : d₁ ≤ d₂) (hx : x < o.width) (hy : y < o.height)
    (hm : diffMask o m { s with dilationIter := d₁ } x y = true) :
    diffMask o m { s with dilationIter := d₂ } x y = true := by
  have heq : d₁ + (d₂ - d₁) = d₂ := Nat.add_sub_cancel' hd
  show dilateIter o.width o.height d₂
    (baseMask o m { s with dilationIter := d₂ }) x y = true
  have hbase : baseMask o m { s with dilationIter := d₂ } =
      baseMask o m { s with dilationIter := d₁ } := rfl
  rw [hbase, ← heq, dilateIter_add]
  exact dilateIter_superset o.width o.height
    (dilateIter o.width o.height d₁ (baseMask o m { s with dilationIter := d₁ }))
    (d₂ - d₁) x y hx hy hm

theorem claim_c4_witness :
    diffMask (blankImage 5 1) twoDotImage
      { demoSettings with dilationIter := 1 } 0 0 = true :=
  claim_c4_amended (blankImage 5 1) twoDotImage demoSettings 0 1 0 0
    (Nat.zero_le 1) (by decide) (by decide) (by decide)

/-- C5: region grouping computes the transitive closure of the pairwise
within-touch-distance relation over the surviving components: if A merges
with B and B merges with C, all three get the same representative (one
final Region), and two components lie in a common class of the grouping
partition iff they are related by the reflexive-transitive closure of the
touch relation. -/
theorem claim_c5 (o m : Image) (s : Settings) :
    (∀ i j k,
        touchR (components o m s) s.touchDistance i j = true →
        touchR (components o m s) s.touchDistance j k = true →
        rep (touchR (components o m s) s.touchDistance)
            (components o m s).length i =
          rep (touchR (components o m s) s.touchDistance)
            (components o m s).length j ∧
        rep (touchR (components o m s) s.touchDistance)
            (components o m s).length j =
          rep (touchR (components o m s) s.touchDistance)
            (components o m s).length k) ∧
    (∀ i j, i < (components o m s).length → j < (components o m s).length →
        ((∃ cls ∈ classesOf (touchR (components o m s) s.touchDistance)
            (components o m s).length, i ∈ cls ∧ j ∈ cls) ↔
          Relation.ReflTransGen
            (fun a b => touchR (components o m s) s.touchDistance a b = true)
            i j)) := by
  have hRb : ∀ a b, touchR (components o m s) s.touchDistance a b = true →
      b < (components o m s).length := fun _ _ h => (touchR_bounds h).2
  have hRs := touchR_symm (components o m s) s.touchDistance
  constructor
  · intro i j k hij hjk
    have hi := (touchR_bounds hij).1
    have hj := (touchR_bounds hij).2
    have hk := (touchR_bounds hjk).2
    exact ⟨(rep_eq_iff_rtg _ _ hRb hRs hi hj).mpr
        (Relation.ReflTransGen.single hij),
      (rep_eq_iff_rtg _ _ hRb hRs hj hk).mpr
        (Relation.ReflTransGen.single hjk)⟩
  · intro i j hi hj
    exact (sameClass_iff_rep_eq _ _ hRb hRs hi hj).trans
      (rep_eq_iff_rtg _ _ hRb hRs hi hj)

theorem claim_c5_witness :
    ∃ cls ∈ classesOf
        (touchR (components (blankImage 5 1) twoDotImage
            { demoSettings with dilationIter := 1 })
          ({ demoSettings with dilationIter := 1 } : Settings).touchDistance)
        (components (blankImage 5 1) twoDotImage
          { demoSettings with dilationIter := 1 }).length,
      0 ∈ cls ∧ 0 ∈ cls :=
  ((claim_c5 (blankImage 5 1) twoDotImage
      { demoSettings with dilationIter := 1 }).2 0 0
    (by decide) (by decide)).mpr Relation.ReflTransGen.refl

/-- C6: `process` is deterministic (a pure function of its inputs), and the
final regions carry ids 1..`circlesCreated` assigned in raster order of
centroid (top-to-bottom, then left-to-right). -/
theorem claim_c6 (o m : Image) (s : Settings) :
    process o m s = process o m s ∧
    (finalRegions o m s).map Region.id =
      List.range' 1 (circlesCreatedOf o m s) ∧
    List.Pairwise (fun a b => rasterLe a b = true) (finalRegions o m s) := by
  refine ⟨rfl, ?_, ?_⟩
  · rw [circlesCreatedOf, finalRegions, assignIds_map_id, length_assignIds]
  · rw [finalRegions]
    exact pairwise_assignIds 1 _ (pairwise_sortLe _)

/-- C7: the combined image is `(wO + wM + imageSpacing) × max hO hM`; in
particular 100×80 and 120×80 sources with spacing 10 give exactly
230×80. -/
theorem claim_c7 :
    (∀ (o m : Image) (s : Settings),
       (combinedOf o m s).width = o.width + m.width + s.imageSpacing ∧
       (combinedOf o m s).height = max o.height m.height) ∧
    (combinedOf (blankImage 100 80) (blankImage 120 80) demoSettings).width =
      230 ∧
    (combinedOf (blankImage 100 80) (blankImage 120 80) demoSettings).height =
      80 :=
  ⟨fun _ _ _ => ⟨rfl, rfl⟩, by decide, by decide⟩

/-- C8: the numeric settings widgets of the UI enforce exactly the ranges
declared in spec §3 (and each widget's initial value lies inside its
range). -/
theorem claim_c8 :
    uiRangeWidgets.map (fun w => (w.elemId, w.minAttr, w.maxAttr)) =
      declaredRanges ∧
    ∀ w ∈ uiRangeWidgets, w.minAttr ≤ w.valueAttr ∧ w.valueAttr ≤ w.maxAttr :=
  ⟨rfl, by decide⟩

theorem claim_c8_witness : 1 ≤ 30 ∧ 30 ≤ 255 :=
  claim_c8.2 ⟨"threshold", 1, 255, 30⟩ (by decide)

/-- C9: `getSettings` builds a record of exactly the eleven §3 fields,
parsing each numeric field with `parseInt` from its widget value and
applying no clamping or validation of its own — an out-of-range widget
value (999 above `threshold`'s max, 0 below `touchDistance`'s min) passes
through unchanged. -/
theorem claim_c9 :
    (∀ dom : String → String,
       getSettings dom =
         { threshold := parseIntJS (dom "threshold"),
           minArea := parseIntJS (dom "minArea"),
           dilationIter := parseIntJS (dom "dilationIter"),
           circleThickness := parseIntJS (dom "circleThickness"),
           circleColor := dom "circleColor",
           overlayColor := dom "overlayColor",
           overlayOpacity := parseIntJS (dom "overlayOpacity"),
           touchDistance := parseIntJS (dom "touchDistance"),
           imageSpacing := parseIntJS (dom "imageSpacing"),
           separatorColor := dom "separatorColor",
           separatorThickness := parseIntJS (dom "separatorThickness") }) ∧
    (getSettings (fun _ => "999")).threshold = some 999 ∧
    (getSettings (fun _ => "0")).touchDistance = some 0 :=
  ⟨fun _ => rfl, by decide, by decide⟩

/-- C10: `processZipFile` fails iff the archive holds no non-directory
entry whose lowercased name includes "combined", or none whose lowercased
name includes "answer"; a missing `.txt` entry is tolerated and replaced by
the empty string. -/
theorem claim_c10 :
    (∀ entries : List ZipEntry,
       (∃ e, processZipFile entries = Except.error e) ↔
         ((∀ en ∈ entries, isCombinedEntry en = false) ∨
          (∀ en ∈ entries, isAnswerEntry en = false))) ∧
    (∀ (entries : List ZipEntry) (v : String × String × String),
       (∀ en ∈ entries, isTextEntry en = false) →
       processZipFile entries = Except.ok v → v.2.2 = "") := by
  constructor
  · intro entries
    constructor
    · rintro ⟨e, he⟩
      cases hc : entries.find? isCombinedEntry with
      | none => exact Or.inl (all_false_of_find?_eq_none hc)
      | some ce =>
          cases ha : entries.find? isAnswerEntry with
          | none => exact Or.inr (all_false_of_find?_eq_none ha)
          | some ae =>
              rw [processZipFile_eq_of_some hc ha] at he
              exact absurd he (by simp)
    · intro hor
      rcases hor with h | h
      · exact processZipFile_error_of_no_combined (find?_eq_none_of_all_false h)
      · exact processZipFile_error_of_no_answer (find?_eq_none_of_all_false h)
  · intro entries v ht hv
    cases hc : entries.find? isCombinedEntry with
    | none =>
        obtain ⟨e, he⟩ := processZipFile_error_of_no_combined hc
        rw [hv] at he
        exact absurd he (by simp)
    | some ce =>
        cases ha : entries.find? isAnswerEntry with
        | none =>
            obtain ⟨e, he⟩ := processZipFile_error_of_no_answer ha
            rw [hv] at he
            exact absurd he (by simp)
        | some ae =>
            have hpe := processZipFile_eq_of_some hc ha
            rw [hv, find?_eq_none_of_all_false ht] at hpe
            have hinj := Except.ok.inj hpe
            rw [hinj]
            rfl

theorem claim_c10_witness :
    (∃ e, processZipFile badEntries = Except.error e) ∧
    (("CIMG", "AIMG", "") : String × String × String).2.2 = "" :=
  ⟨(claim_c10.1 badEntries).mpr (Or.inr (by decide)),
   claim_c10.2 demoEntries ("CIMG", "AIMG", "") (by decide) rfl⟩
